import Mathlib

/-!
Shallow embedding of `txt_score_parser.py` (class `TxtScoreParser`) from the
jx3_piano repository, together with proofs settling the frozen claims.

Modelling conventions:
* Python floats are modelled as `ℚ` (all times/durations arising are dyadic
  rationals far below the precision loss threshold of float64, so rational
  arithmetic coincides with the source's float arithmetic on every value the
  claims touch).
* Python exceptions (`ValueError` raised and not caught) are modelled with
  `Except String`; a collected `ParseError` dataclass is a structure.
* Python's stable `list.sort(key=...)` is modelled by a structural stable
  insertion sort (`stableSortBy`) with the same comparison key.
* Strings are processed as `List Char`; Python's `str.split`, `str.strip`,
  code-point string comparison and `int(...)` are re-implemented structurally
  (`pySplit`, `pyTrim`, `strLeb`, `pyParseInt`) because the corresponding
  core-library functions do not reduce in the kernel.
* `print` statements, file I/O, the `datetime` metadata field and the
  accumulated warning list are omitted: none of them influence the error
  list, the success/failure outcome or the playback data that the claims
  are about.
-/

namespace TxtScore

/-- Generic Python-style character predicates and list utilities. -/
def isWs (c : Char) : Bool := c = ' ' || c = '\t' || c = '\n' || c = '\r'

/-- Python `str.strip()` (restricted to ASCII whitespace, which is all the
inputs here contain). -/
def pyTrim (l : List Char) : List Char :=
  ((l.dropWhile isWs).reverse.dropWhile isWs).reverse

/-- Python `str.split(sep)` for a one-character separator: keeps empty parts,
`"".split(sep) == ['']`. -/
def pySplit (sep : Char) : List Char → List (List Char)
  | [] => [[]]
  | c :: rest =>
    match pySplit sep rest with
    | [] => [[]]
    | grp :: grps => if c = sep then [] :: grp :: grps else (c :: grp) :: grps

/-- Python `int(s)` on an already-stripped string: optional sign then digits. -/
def pyParseIntDigits : List Char → Option Int
  | [] => none
  | l => l.foldl (fun acc c =>
      match acc with
      | none => none
      | some n => if c.isDigit then some (n * 10 + (c.toNat - '0'.toNat : Int)) else none)
      (some 0)

def pyParseInt (l : List Char) : Option Int :=
  match l with
  | '-' :: rest => (pyParseIntDigits rest).map (fun n => -n)
  | '+' :: rest => pyParseIntDigits rest
  | _ => pyParseIntDigits l

/-- Code-point lexicographic comparison of char lists, as Python compares
strings. -/
def listLeb : List Char → List Char → Bool
  | [], _ => true
  | _ :: _, [] => false
  | c :: cs, d :: ds => if c = d then listLeb cs ds else decide (c < d)

def strLeb (a b : String) : Bool := listLeb a.toList b.toList

/-- Python `abs` on a rational. -/
def rat_abs (q : ℚ) : ℚ := if q < 0 then -q else q

/-- Stable insertion of `a` into `l`: `a` goes before the first element `b`
with `¬ le a b` being false, i.e. before elements it ties with that came
later in the original list.  Together with `stableSortBy` this implements
exactly the observable behaviour of Python's stable `list.sort`. -/
def stInsert (le : α → α → Bool) (a : α) : List α → List α
  | [] => [a]
  | b :: bs => if le a b then a :: b :: bs else b :: stInsert le a bs

def stableSortBy (le : α → α → Bool) : List α → List α
  | [] => []
  | a :: as => stInsert le a (stableSortBy le as)

/-! ## Data model (the `@dataclass` declarations of the source) -/

/-- `Note` dataclass. -/
structure Note where
  pitch : ℕ
  octave : String
  accidental : String
  duration : String
  modifier : String
  is_rest : Bool
deriving DecidableEq, Repr

/-- `Chord` dataclass. -/
structure Chord where
  notes : List Note
  duration : String
  modifier : String
deriving DecidableEq, Repr

/-- A triplet element is a single note or a chord (`Union[Note, Chord]`). -/
inductive NC where
  | n (x : Note)
  | c (x : Chord)
deriving DecidableEq, Repr

/-- `Triplet` dataclass. -/
structure Triplet where
  notes : List NC
  duration : String
  modifier : String
  accidental : String
deriving DecidableEq, Repr

/-- The main element of a grace group (`Union[Note, Chord]` in the dataclass,
but `_parse_grace_note` can also store a `Triplet` there). -/
inductive GMain where
  | n (x : Note)
  | c (x : Chord)
  | t (x : Triplet)
deriving DecidableEq, Repr

/-- `Grace` dataclass. -/
structure Grace where
  grace_notes : List Note
  main_note : GMain
  duration : String
  modifier : String
deriving DecidableEq, Repr

/-- Result of `_parse_token`: one of the four syntax-node kinds. -/
inductive PT where
  | note (x : Note)
  | chord (x : Chord)
  | grace (x : Grace)
  | triplet (x : Triplet)
deriving DecidableEq, Repr

/-- `ParseError` dataclass. -/
structure ParseError where
  line : ℕ
  position : ℕ
  message : String
  context : String
deriving DecidableEq, Repr

/-- Event kinds of `TimeEvent.event_type` (string constants in the source). -/
inductive EType where
  | key_press
  | key_release
  | modifier_press
  | modifier_release
deriving DecidableEq, Repr

/-- `TimeEvent` dataclass; `time` is seconds as a rational. -/
structure TimeEvent where
  time : ℚ
  event_type : EType
  key : String
  track_id : ℕ
deriving DecidableEq, Repr

/-- Entries of the flat `playback_data` list.  The source appends the plain
key string for presses, the string `"release_" + key` for modifier releases,
and a rounded float for delays; the three shapes are kept apart by
constructor here. -/
inductive PbEntry where
  | press (k : String)
  | release (k : String)
  | delay (d : ℚ)
deriving DecidableEq, Repr

/-- The mutable `self.current_sharp_flat_state` dictionary. -/
structure SFState where
  sharp : Bool
  flat : Bool
deriving DecidableEq, Repr

/-! ## Static tables of `TxtScoreParser.__init__` -/

/-- `self.note_to_key`: scale degree 1..7 to the game keys Q W E R T Y U. -/
def note_to_key (p : ℕ) : Option String :=
  if p = 1 then some "Q" else if p = 2 then some "W" else if p = 3 then some "E"
  else if p = 4 then some "R" else if p = 5 then some "T" else if p = 6 then some "Y"
  else if p = 7 then some "U" else none

/-- `self.note_to_key.values()`. -/
def note_key_values : List String := ["Q", "W", "E", "R", "T", "Y", "U"]

/-- `self.modifier_keys`. -/
def modifier_keys (m : String) : Option String :=
  if m = "~" then some "↑" else if m = "*" then some "↓"
  else if m = "&" then some "shift" else if m = "@" then some "ctrl" else none

/-- `self.supported_beats`. -/
def supported_beats : List String := ["2/4", "3/4", "4/4"]

/-- `self.duration_values` (beats, with the quarter note as 1.0). -/
def duration_values (s : String) : ℚ :=
  if s = "" then 1 else if s = "_" then 1/2 else if s = "__" then 1/4
  else if s = "." then 3/2 else 0

/-! ## Tokenizer (`_tokenize_measure`) -/

def is_suffix_char (c : Char) : Bool :=
  c = '_' || c = '.' || c = '~' || c = '*' || c = '&' || c = '@'

def is_dur_char (c : Char) : Bool := c = '_' || c = '.'

def is_mod_char (c : Char) : Bool := c = '~' || c = '*' || c = '&' || c = '@'

def is_oct_char (c : Char) : Bool := c = '+' || c = '-'

def unmatched_triplet_msg : String := "未匹配的三连音括号: "
def unmatched_grace_msg : String := "未匹配的装饰音括号: "
def unmatched_chord_msg : String := "未匹配的和弦括号: "

/-- The bracket-depth scan of the source's `while j < len(measure) and count > 0`
loops: consumes characters into `acc`, adjusting the depth, until depth 0 or
the measure ends.  Returns accumulated token text, remaining input and final
depth. -/
def scan_group (oc cc : Char) : List Char → ℕ → List Char → List Char × List Char × ℕ
  | [], depth, acc => (acc, [], depth)
  | c :: rest, depth, acc =>
    let acc2 := acc ++ [c]
    let depth2 := if c = oc then depth + 1 else if c = cc then depth - 1 else depth
    if depth2 = 0 then (acc2, rest, 0) else scan_group oc cc rest depth2 acc2

/-- A bracketed group token: scan to the matching close bracket (else raise
the unmatched-bracket `ValueError`), then absorb trailing duration/modifier
characters. -/
def group_token (err : String) (oc cc : Char) (pfx rest : List Char) :
    Except String (String × List Char) :=
  let (acc, rem, d) := scan_group oc cc rest 1 pfx
  if d = 0 then
    .ok (String.mk (acc ++ rem.takeWhile is_suffix_char), rem.dropWhile is_suffix_char)
  else
    .error (err ++ String.mk acc)

/-- Octave markers, one digit, duration characters and one optional modifier
(the tail of the plain-note branch of `_tokenize_measure`); `tok` is the text
already consumed (an accidental prefix or nothing).  Characters that cannot
start a token are skipped without producing anything, exactly as in the
source's final `else: i += 1; continue`. -/
def note_tail (tok : List Char) (l : List Char) : Option String × List Char :=
  let oct := l.takeWhile is_oct_char
  let tok1 := tok ++ oct
  match l.dropWhile is_oct_char with
  | [] => (if tok1.isEmpty then none else some (String.mk tok1), [])
  | d :: rest2 =>
    if d.isDigit then
      let dur := rest2.takeWhile is_dur_char
      let tok3 := tok1 ++ [d] ++ dur
      match rest2.dropWhile is_dur_char with
      | [] => (some (String.mk tok3), [])
      | m :: rest3 =>
        if is_mod_char m then (some (String.mk (tok3 ++ [m])), rest3)
        else (some (String.mk tok3), m :: rest3)
    else
      (if tok1.isEmpty then none else some (String.mk tok1), rest2)

/-- One iteration of the tokenizer's plain-note branch (possibly an
accidental-prefixed chord/triplet).  A lone trailing accidental is dropped
(`break` in the source). -/
def plain_step : List Char → Except String (Option String × List Char)
  | [] => .ok (none, [])
  | c :: rest =>
    if c = '#' || c = 'b' then
      match rest with
      | [] => .ok (none, [])
      | c2 :: rest2 =>
        if c2 = '[' then
          (group_token unmatched_chord_msg '[' ']' [c, c2] rest2).map
            (fun p => (some p.1, p.2))
        else if c2 = '<' then
          (group_token unmatched_triplet_msg '<' '>' [c, c2] rest2).map
            (fun p => (some p.1, p.2))
        else .ok (note_tail [c] rest)
    else .ok (note_tail [] (c :: rest))

/-- The main tokenizer loop.  `fuel` only bounds the recursion; every
iteration of the source loop consumes at least one character, so
`fuel = length + 1` (as supplied by `tokenize_measure`) never runs out. -/
def tokenize_aux : ℕ → List Char → Except String (List String)
  | 0, _ => .error "tokenizer fuel exhausted"
  | _, [] => .ok []
  | fuel + 1, c :: rest =>
    if c = ' ' then tokenize_aux fuel rest
    else if c = '<' then do
      let (t, rem) ← group_token unmatched_triplet_msg '<' '>' [c] rest
      let ts ← tokenize_aux fuel rem
      .ok (t :: ts)
    else if c = '{' then do
      let (t, rem) ← group_token unmatched_grace_msg '{' '}' [c] rest
      let ts ← tokenize_aux fuel rem
      .ok (t :: ts)
    else if c = '[' then do
      let (t, rem) ← group_token unmatched_chord_msg '[' ']' [c] rest
      let ts ← tokenize_aux fuel rem
      .ok (t :: ts)
    else do
      let (t?, rem) ← plain_step (c :: rest)
      let ts ← tokenize_aux fuel rem
      .ok (match t? with | some t => t :: ts | none => ts)

/-- `_tokenize_measure`. -/
def tokenize_measure (m : String) : Except String (List String) :=
  tokenize_aux (m.toList.length + 1) m.toList

/-! ## Token parsers (`_parse_single_note`, `_parse_chord`, `_parse_triplet`,
`_parse_grace_note`, `_parse_token`) -/

/-- Python `s.find(c, start)`: index of the first occurrence at `start` or
later, as an `Option` instead of `-1`. -/
def findIdxFrom (p : Char → Bool) (start : ℕ) (l : List Char) : Option ℕ :=
  match (l.drop start).findIdx? p with
  | some i => some (start + i)
  | none => none

/-- Python `s.rfind(c)`: index of the last occurrence. -/
def rfindIdx (p : Char → Bool) (l : List Char) : Option ℕ :=
  match l.reverse.findIdx? p with
  | some i => some (l.length - 1 - i)
  | none => none

/-- First maximal run of characters satisfying `p`
(`re.search` with a `[...]+` pattern). -/
def first_run (p : Char → Bool) (l : List Char) : List Char :=
  (l.dropWhile (fun c => !p c)).takeWhile p

/-- The accidental prefix check shared by the chord/triplet/grace parsers
(`token.startswith(('#', 'b'))`): accidental string and content start index. -/
def acc_head (cs : List Char) : String × ℕ :=
  match cs with
  | c :: _ => if c = '#' || c = 'b' then (String.mk [c], 1) else ("", 0)
  | [] => ("", 0)

/-- `_parse_single_note`: the greedy match of
`^([#b]?)([+\-]*)([0-7])([_.]*)([~*&@]?)$` (greedy matching coincides with
the regex here because the five character classes are pairwise disjoint),
raising `音符格式错误` when the token does not fit.  The playable-range
warnings of the source are skipped (they affect neither errors nor events). -/
def parse_single_note (token : String) : Except String Note :=
  let cs := token.toList
  let (acc, cs1) : String × List Char :=
    match cs with
    | c :: r => if c = '#' || c = 'b' then (String.mk [c], r) else ("", cs)
    | [] => ("", [])
  let oct := cs1.takeWhile is_oct_char
  match cs1.dropWhile is_oct_char with
  | d :: cs3 =>
    if '0' ≤ d && d ≤ '7' then
      let dur := cs3.takeWhile is_dur_char
      let cs4 := cs3.dropWhile is_dur_char
      let (m, cs5) : String × List Char :=
        match cs4 with
        | mc :: r => if is_mod_char mc then (String.mk [mc], r) else ("", cs4)
        | [] => ("", [])
      if cs5.isEmpty then
        .ok ⟨d.toNat - '0'.toNat, String.mk oct, acc, String.mk dur, m, d == '0'⟩
      else .error ("音符格式错误: " ++ token)
    else .error ("音符格式错误: " ++ token)
  | [] => .error ("音符格式错误: " ++ token)

/-- The chord-content loop of `_parse_chord`: repeated `([+\-]*)([1-7])`
matches, one `Note` each, accidental shared, duration/modifier suppressed. -/
def chord_notes_aux (acc : String) : ℕ → List Char → Except String (List Note)
  | _, [] => .ok []
  | 0, _ => .error "chord fuel exhausted"
  | fuel + 1, cs =>
    let oct := cs.takeWhile is_oct_char
    match cs.dropWhile is_oct_char with
    | d :: rest =>
      if '1' ≤ d && d ≤ '7' then do
        let ns ← chord_notes_aux acc fuel rest
        .ok (⟨d.toNat - '0'.toNat, String.mk oct, acc, "", "", false⟩ :: ns)
      else .error ("和弦中音符格式错误: " ++ String.mk cs)
    | [] => .error ("和弦中音符格式错误: " ++ String.mk cs)

/-- `_parse_chord`. -/
def parse_chord (token : String) : Except String Chord := do
  let cs := token.toList
  let (acc, start) := acc_head cs
  match findIdxFrom (fun c => c = '[') start cs, rfindIdx (fun c => c = ']') cs with
  | some bs, some be =>
    let content := ((cs.drop (bs + 1)).take (be - (bs + 1))).filter (fun c => c ≠ ' ')
    let suffix := cs.drop (be + 1)
    let dur := String.mk (first_run is_dur_char suffix)
    let m : String := match suffix.find? is_mod_char with
      | some c => String.mk [c]
      | none => ""
    let ns ← chord_notes_aux acc (content.length + 1) content
    if ns.isEmpty then .error ("空和弦: " ++ token)
    else .ok ⟨ns, dur, m⟩
  | _, _ => .error ("和弦格式错误: " ++ token)

/-- The chord-inside-triplet note loop (`([+\-]*)([0-7])`, rests allowed). -/
def triplet_chord_notes_aux (acc : String) : ℕ → List Char → Except String (List Note)
  | _, [] => .ok []
  | 0, _ => .error "triplet chord fuel exhausted"
  | fuel + 1, cs =>
    let oct := cs.takeWhile is_oct_char
    match cs.dropWhile is_oct_char with
    | d :: rest =>
      if '0' ≤ d && d ≤ '7' then do
        let ns ← triplet_chord_notes_aux acc fuel rest
        .ok (⟨d.toNat - '0'.toNat, String.mk oct, acc, "", "", d == '0'⟩ :: ns)
      else .error ("三连音和弦中音符格式错误: " ++ String.mk cs)
    | [] => .error ("三连音和弦中音符格式错误: " ++ String.mk cs)

/-- The element loop of `_parse_triplet`: up to 3 notes-or-chords; returns the
elements, the unconsumed remainder and the element count. -/
def triplet_items_aux (acc : String) : ℕ → List Char → ℕ → Except String (List NC × List Char × ℕ)
  | 0, _, _ => .error "triplet fuel exhausted"
  | fuel + 1, cs, cnt =>
    if 3 ≤ cnt then .ok ([], cs, cnt)
    else
      match cs with
      | [] => .ok ([], [], cnt)
      | '[' :: rest =>
        match rest.findIdx? (fun c => c = ']') with
        | none => .error ("三连音中和弦格式错误: " ++ String.mk ('[' :: rest))
        | some j => do
          let chord_content := rest.take j
          let ns ← triplet_chord_notes_aux acc (chord_content.length + 1) chord_content
          let (items, rem, cnt2) ← triplet_items_aux acc fuel (rest.drop (j + 1)) (cnt + 1)
          .ok (.c ⟨ns, "", ""⟩ :: items, rem, cnt2)
      | cs' =>
        let oct := cs'.takeWhile is_oct_char
        match cs'.dropWhile is_oct_char with
        | d :: rest =>
          if '0' ≤ d && d ≤ '7' then do
            let (items, rem, cnt2) ← triplet_items_aux acc fuel rest (cnt + 1)
            .ok (.n ⟨d.toNat - '0'.toNat, String.mk oct, acc, "", "", d == '0'⟩ :: items, rem, cnt2)
          else .error ("三连音中音符格式错误: " ++ String.mk cs')
        | [] => .error ("三连音中音符格式错误: " ++ String.mk cs')

/-- `_parse_triplet`: exactly 3 elements, shared accidental/duration/modifier;
wrong arity or leftover characters are hard errors. -/
def parse_triplet (token : String) : Except String Triplet := do
  let cs := token.toList
  let (acc, start) := acc_head cs
  match findIdxFrom (fun c => c = '<') start cs, rfindIdx (fun c => c = '>') cs with
  | some as, some ae =>
    let content := ((cs.drop (as + 1)).take (ae - (as + 1))).filter (fun c => c ≠ ' ')
    let suffix := cs.drop (ae + 1)
    let dur := String.mk (first_run is_dur_char suffix)
    let m : String := match suffix.find? is_mod_char with
      | some c => String.mk [c]
      | none => ""
    let (items, rem, cnt) ← triplet_items_aux acc (content.length + 1) content 0
    if cnt ≠ 3 then
      .error ("三连音必须包含正好3个音符，实际: " ++ toString cnt ++ " (" ++ token ++ ")")
    else if ¬ rem.isEmpty then
      .error ("三连音包含多余的字符: " ++ String.mk rem ++ " (" ++ token ++ ")")
    else .ok ⟨items, dur, m, acc⟩
  | _, _ => .error ("三连音格式错误: " ++ token)

/-- The content loop of `_parse_grace_note`: plain `[1-7]` notes until an
embedded chord/triplet becomes the main element (then the loop `break`s,
silently discarding any remaining content). -/
def grace_items_aux (acc dur m : String) : ℕ → List Char → Except String (List Note × Option GMain)
  | 0, _ => .error "grace fuel exhausted"
  | _, [] => .ok ([], none)
  | _, '<' :: rest =>
    match rest.findIdx? (fun c => c = '>') with
    | none => .error ("装饰音中三连音格式错误: " ++ String.mk ('<' :: rest))
    | some j => do
      let ttok := acc ++ String.mk ('<' :: rest.take (j + 1)) ++ dur ++ m
      let tr ← parse_triplet ttok
      .ok ([], some (.t tr))
  | _, '[' :: rest =>
    match rest.findIdx? (fun c => c = ']') with
    | none => .error ("装饰音中和弦格式错误: " ++ String.mk ('[' :: rest))
    | some j => do
      let ctok := acc ++ String.mk ('[' :: rest.take (j + 1)) ++ dur ++ m
      let ch ← parse_chord ctok
      .ok ([], some (.c ch))
  | fuel + 1, cs =>
    let oct := cs.takeWhile is_oct_char
    match cs.dropWhile is_oct_char with
    | d :: rest =>
      if '1' ≤ d && d ≤ '7' then do
        let (ns, mn) ← grace_items_aux acc dur m fuel rest
        .ok (⟨d.toNat - '0'.toNat, String.mk oct, acc, "", "", false⟩ :: ns, mn)
      else .error ("装饰音中音符格式错误: " ++ String.mk cs)
    | [] => .error ("装饰音中音符格式错误: " ++ String.mk cs)

/-- `_parse_grace_note`.  (When the token has no `{` the source's
`token.find` yields `-1` and the content slice starts at index 0; the
`getD 0` below reproduces that.) -/
def parse_grace_note (token : String) : Except String Grace := do
  let cs := token.toList
  let (acc, start) := acc_head cs
  match rfindIdx (fun c => c = '}') cs with
  | none => .error ("装饰音格式错误: " ++ token)
  | some be =>
    let bs1 : ℕ := ((findIdxFrom (fun c => c = '{') start cs).map (· + 1)).getD 0
    let content := ((cs.drop bs1).take (be - bs1)).filter (fun c => c ≠ ' ')
    let suffix := cs.drop (be + 1)
    let dur := String.mk (first_run is_dur_char suffix)
    let m : String := match suffix.find? is_mod_char with
      | some c => String.mk [c]
      | none => ""
    let (ns, mn?) ← grace_items_aux acc dur m (content.length + 1) content
    match mn? with
    | some mn => .ok ⟨ns, mn, dur, m⟩
    | none =>
      match ns.reverse with
      | [] => .error ("空装饰音: " ++ token)
      | lastN :: initRev =>
        .ok ⟨initRev.reverse, .n { lastN with duration := dur, modifier := m }, dur, m⟩

/-- `_parse_token`: dispatch on the leading structural character (allowing an
accidental prefix); the empty token parses to `None`. -/
def parse_token (token : String) : Except String (Option PT) :=
  if token = "" then .ok none
  else
    let cs := token.toList
    let starts (c : Char) : Bool := match cs with | c0 :: _ => c0 = c | [] => false
    let second (c : Char) : Bool :=
      match cs with
      | c0 :: c1 :: _ => (c0 = '#' || c0 = 'b') && c1 = c
      | _ => false
    if (starts '<' || second '<') && cs.contains '>' then
      (parse_triplet token).map (fun t => some (.triplet t))
    else if (starts '{' || second '{') && cs.contains '}' then
      (parse_grace_note token).map (fun g => some (.grace g))
    else if (starts '[' || second '[') && cs.contains ']' then
      (parse_chord token).map (fun c => some (.chord c))
    else
      (parse_single_note token).map (fun n => some (.note n))

/-! ## Durations (`_get_token_duration`) and note counting -/

/-- The duration computation of `_get_token_duration` on a duration string:
underscores give 1/2 or 1/4, a dot multiplies an underscore value by 1.5 or
alone adds 1.5, and a zero total falls back to the quarter note 1.0. -/
def get_dur_value (ds : String) : ℚ :=
  let cs := ds.toList
  let hasU := cs.contains '_'
  let hasDot := cs.contains '.'
  let t1 : ℚ :=
    if hasU then
      (if cs.count '_' = 1 then duration_values "_"
       else if cs.count '_' = 2 then duration_values "__" else 0)
    else 0
  let t2 : ℚ := if hasDot then (if hasU then t1 * (3/2) else t1 + duration_values ".") else t1
  if t2 = 0 then duration_values "" else t2

/-- `_get_token_duration` reads the token's own duration string. -/
def token_duration : PT → ℚ
  | .note x => get_dur_value x.duration
  | .chord x => get_dur_value x.duration
  | .grace x => get_dur_value x.duration
  | .triplet x => get_dur_value x.duration

/-- `_count_notes_in_token`. -/
def count_notes : PT → ℕ
  | .note _ => 1
  | .chord x => x.notes.length
  | .grace x =>
    x.grace_notes.length + (match x.main_note with | .c ch => ch.notes.length | _ => 1)
  | .triplet x =>
    (x.notes.map (fun nc => match nc with | .c ch => ch.notes.length | .n _ => 1)).sum

/-! ## First pass (`_first_pass_validation`, `_validate_measure`) -/

/-- Configuration read from the two header lines. -/
structure Config where
  bpm : Int
  time_signature : String
  beats_per_measure : ℕ
  beat_unit : ℕ
deriving DecidableEq, Repr

/-- The per-token loop of `_validate_measure`: parse failures become collected
errors (the `try`/`except` around `_parse_token`), successes contribute their
duration and note count. -/
def scan_tokens (li pi : ℕ) (measure : String) : List String → List ParseError × ℚ × ℕ
  | [] => ([], 0, 0)
  | t :: ts =>
    let r := scan_tokens li pi measure ts
    match parse_token t with
    | .ok (some pt) => (r.1, token_duration pt + r.2.1, count_notes pt + r.2.2)
    | .ok none => r
    | .error e =>
      (⟨li, pi, "音符语法错误: '" ++ t ++ "' - " ++ e, measure⟩ :: r.1, r.2.1, r.2.2)

/-- The duration-mismatch error text of `_validate_measure` (number rendering
abstracted to `toString` of the rational; Python prints floats, which only
changes the digits' formatting, not which values are reported). -/
def duration_mismatch_msg (expected actual : ℚ) : String :=
  "小节时值不匹配: 期望" ++ toString expected ++ "拍，实际" ++ toString actual ++ "拍"

/-- `_validate_measure`: tokenize (an unmatched-bracket `ValueError` raised
here escapes uncaught — hence the `Except`), collect per-token parse errors,
then append a duration-mismatch error when the summed duration differs from
`beats_per_measure` by more than 0.001.  Returns collected errors and the
measure's note count. -/
def validate_measure (cfg : Config) (measure : String) (li pi : ℕ) :
    Except String (List ParseError × ℕ) := do
  let tokens ← tokenize_measure measure
  let r := scan_tokens li pi measure tokens
  let expected : ℚ := (cfg.beats_per_measure : ℚ)
  .ok (r.1 ++
    (if 1/1000 < rat_abs (r.2.1 - expected) then
      [⟨li, pi, duration_mismatch_msg expected r.2.1, measure⟩]
    else []), r.2.2)

/-- The BPM check at the top of `_first_pass_validation`. -/
def bpm_check (line0 : List Char) : List ParseError × Int :=
  match pyParseInt (pyTrim line0) with
  | some b =>
    (if b ≤ 0 ∨ 300 < b then
       [⟨1, 0, "BPM值无效: " ++ toString b ++ "，应在1-300之间", String.mk line0⟩]
     else [], b)
  | none =>
    ([⟨1, 0, "BPM格式错误: '" ++ String.mk (pyTrim line0) ++ "'，应为数字", String.mk line0⟩], 0)

/-- The time-signature check; on failure the defaults 4/4 from
`reset_parse_state` remain in force. -/
def beats_check (line1 : List Char) : List ParseError × String × ℕ × ℕ :=
  let ts := String.mk (pyTrim line1)
  if ts = "2/4" then ([], ts, 2, 4)
  else if ts = "3/4" then ([], ts, 3, 4)
  else if ts = "4/4" then ([], ts, 4, 4)
  else
    ([⟨2, 0, "不支持的节拍: '" ++ ts ++ "'，支持: 2/4, 3/4, 4/4", String.mk line1⟩], ts, 4, 4)

/-- Python `line.startswith('|') and line.endswith('|')` plus `line[1:-1]`. -/
def strip_outer_bars (l : List Char) : List Char :=
  match l with
  | '|' :: rest =>
    match rest.reverse with
    | '|' :: midRev => midRev.reverse
    | _ => l
  | _ => l

/-- Indexed traversal used for `enumerate`. -/
def enum_from (i : ℕ) : List α → List (ℕ × α)
  | [] => []
  | a :: as => (i, a) :: enum_from (i + 1) as

/-- Splitting one score line into its measures (`(line_idx, part_idx, text)`
triples), skipping blank parts. -/
def measure_parts (li : ℕ) (line : List Char) : List (ℕ × ℕ × List Char) :=
  (enum_from 0 (pySplit '|' (strip_outer_bars line))).filterMap
    (fun p => if (pyTrim p.2).isEmpty then none else some (li, p.1, pyTrim p.2))

/-- The measure-collection loop over `lines[2:]` (line numbers start at 3,
blank lines skipped). -/
def collect_measures : ℕ → List (List Char) → List (ℕ × ℕ × List Char)
  | _, [] => []
  | li, l :: ls =>
    (if (pyTrim l).isEmpty then [] else measure_parts li (pyTrim l)) ++
      collect_measures (li + 1) ls

/-- Validation of all collected measures in order; any uncaught tokenizer
exception aborts the whole first pass. -/
def validate_all (cfg : Config) : List (ℕ × ℕ × List Char) → Except String (List ParseError × ℕ)
  | [] => .ok ([], 0)
  | (li, pi, mcs) :: rest => do
    let (es, n) ← validate_measure cfg (String.mk mcs) li pi
    let (es2, n2) ← validate_all cfg rest
    .ok (es ++ es2, n + n2)

/-- Result of a successful run of `_first_pass_validation` (the collected
error list may still be non-empty; `parse_content` inspects it). -/
structure FirstPass where
  cfg : Config
  errors : List ParseError
  measures : List (ℕ × ℕ × List Char)
  total_notes : ℕ
deriving DecidableEq, Repr

/-- The configuration assembled from the two header lines (defaults stay in
force when the checks fail). -/
def header_config (lines : List (List Char)) : Config :=
  ⟨(bpm_check (lines.getD 0 [])).2, (beats_check (lines.getD 1 [])).2.1,
   (beats_check (lines.getD 1 [])).2.2.1, (beats_check (lines.getD 1 [])).2.2.2⟩

/-- `_first_pass_validation`: BPM and time-signature checks first, then every
measure of every voice line is tokenized and validated, with all errors
accumulated into one list (config errors first). -/
def first_pass_validation (lines : List (List Char)) : Except String FirstPass :=
  match validate_all (header_config lines) (collect_measures 3 (lines.drop 2)) with
  | .error e => .error e
  | .ok v =>
    .ok ⟨header_config lines,
      (bpm_check (lines.getD 0 [])).1 ++ (beats_check (lines.getD 1 [])).1 ++ v.1,
      collect_measures 3 (lines.drop 2), v.2⟩

/-! ## Second pass: timeline generation (`_generate_*_events`) -/

/-- The sharp/flat state machine shared by `_generate_note_events` and
`_generate_triplet_events`: on `#` emit `+` only when not already sharp, on
`b` emit `-` only when not already flat, on no accidental emit the opposite
toggle when sharp or flat; the new state is returned alongside. -/
def acc_transition (acc : String) (start : ℚ) (tid : ℕ) (s : SFState) :
    List TimeEvent × SFState :=
  if acc = "#" then
    if ¬ s.sharp then ([⟨start, .key_press, "+", tid⟩], ⟨true, false⟩) else ([], s)
  else if acc = "b" then
    if ¬ s.flat then ([⟨start, .key_press, "-", tid⟩], ⟨false, true⟩) else ([], s)
  else if acc = "" then
    ((if s.sharp then [⟨start, .key_press, "-", tid⟩]
      else if s.flat then [⟨start, .key_press, "+", tid⟩] else []), ⟨false, false⟩)
  else ([], s)

/-- The optional `modifier_press` event at the start time. -/
def mod_press_events (modifier : String) (start : ℚ) (tid : ℕ) : List TimeEvent :=
  match modifier_keys modifier with
  | some mk => [⟨start, .modifier_press, mk, tid⟩]
  | none => []

/-- The optional `modifier_release` event 1 ms later. -/
def mod_release_events (modifier : String) (start : ℚ) (tid : ℕ) : List TimeEvent :=
  match modifier_keys modifier with
  | some mk => [⟨start + 1/1000, .modifier_release, mk, tid⟩]
  | none => []

/-- The `key_press` for the mapped scale-degree key (nothing if unmapped). -/
def pitch_events (pitch : ℕ) (start : ℚ) (tid : ℕ) : List TimeEvent :=
  match note_to_key pitch with
  | some k => [⟨start, .key_press, k, tid⟩]
  | none => []

/-- `_generate_note_events`: rests emit nothing; the accidental state machine
emits at most one `+`/`-` toggle and updates the shared state; then optional
modifier press, the mapped pitch key, and the modifier release 1 ms later. -/
def generate_note_events (note : Note) (start : ℚ) (tid : ℕ) (s : SFState) :
    List TimeEvent × SFState :=
  if note.is_rest then ([], s)
  else
    let a := acc_transition note.accidental start tid s
    (a.1 ++ mod_press_events note.modifier start tid ++ pitch_events note.pitch start tid ++
      mod_release_events note.modifier start tid, a.2)

/-- The event filter of `_generate_chord_events`: keep only `key_press`
events whose key is one of the seven pitch keys. -/
def chord_keep (e : TimeEvent) : Bool :=
  e.event_type == EType.key_press && note_key_values.contains e.key

/-- The per-note loop of `_generate_chord_events`: each chord note goes
through `_generate_note_events` (so the accidental state still transitions),
but only events passing `chord_keep` survive — accidental `+`/`-` toggles
and modifier events are dropped. -/
def chord_note_loop (start : ℚ) (tid : ℕ) : List Note → SFState → List TimeEvent × SFState
  | [], s => ([], s)
  | n :: ns, s =>
    let r := generate_note_events n start tid s
    let r2 := chord_note_loop start tid ns r.2
    (r.1.filter chord_keep ++ r2.1, r2.2)

/-- `_generate_chord_events`. -/
def generate_chord_events (chord : Chord) (start : ℚ) (tid : ℕ) (s : SFState) :
    List TimeEvent × SFState :=
  let r := chord_note_loop start tid chord.notes s
  (mod_press_events chord.modifier start tid ++ r.1 ++
    mod_release_events chord.modifier start tid, r.2)

/-- The direct key emission for one triplet element (no accidental handling,
rests and unmapped pitches skipped). -/
def triplet_nc_events (nc : NC) (t : ℚ) (tid : ℕ) : List TimeEvent :=
  match nc with
  | .c ch =>
    ch.notes.filterMap (fun n =>
      if ¬ n.is_rest then (note_to_key n.pitch).map (fun k => ⟨t, .key_press, k, tid⟩)
      else none)
  | .n n =>
    if ¬ n.is_rest then
      match note_to_key n.pitch with
      | some k => [⟨t, .key_press, k, tid⟩]
      | none => []
    else []

/-- The enumerated loop over the three triplet elements: the time cursor
advances by `note_durations[i] / 1000` after the first two elements. -/
def triplet_loop (tid : ℕ) (durs : List ℕ) : List NC → ℚ → ℕ → List TimeEvent
  | [], _, _ => []
  | nc :: rest, t, i =>
    triplet_nc_events nc t tid ++
      triplet_loop tid durs rest (if i < 2 then t + (durs.getD i 0 : ℚ) / 1000 else t) (i + 1)

/-- The three integer-millisecond spans of a triplet of total span `totalMs`:
floor division by 3 with the remainder added to the third span. -/
def triplet_spans (totalMs : ℕ) : List ℕ :=
  [totalMs / 3, totalMs / 3, totalMs / 3 + totalMs % 3]

/-- The triplet's total span in integer milliseconds: Python's
`int(total_duration * 1000)` (truncation; the value is never negative). -/
def triplet_total_ms (dur : String) (beat : ℚ) : ℕ :=
  (⌊get_dur_value dur * beat * 1000⌋).toNat

/-- `_generate_triplet_events`: group accidental state machine, span
partition, sequential emission, optional modifier wrap. -/
def generate_triplet_events (tr : Triplet) (start : ℚ) (beat : ℚ) (tid : ℕ) (s : SFState) :
    List TimeEvent × SFState :=
  let a := acc_transition tr.accidental start tid s
  let noteEvs := triplet_loop tid (triplet_spans (triplet_total_ms tr.duration beat)) tr.notes start 0
  (mod_press_events tr.modifier start tid ++ a.1 ++ noteEvs ++
    mod_release_events tr.modifier start tid, a.2)

/-- The grace-note loop of `_generate_grace_events` (50 ms spacing); returns
the events, the time cursor after the last grace note, and the state. -/
def grace_note_loop (tid : ℕ) : List Note → ℚ → SFState → List TimeEvent × ℚ × SFState
  | [], t, s => ([], t, s)
  | n :: ns, t, s =>
    let r := generate_note_events n t tid s
    let r2 := grace_note_loop tid ns (t + 1/20) r.2
    (r.1 ++ r2.1, r2.2.1, r2.2.2)

/-- `_generate_grace_events`. -/
def generate_grace_events (g : Grace) (start : ℚ) (beat : ℚ) (tid : ℕ) (s : SFState) :
    List TimeEvent × SFState :=
  let r := grace_note_loop tid g.grace_notes start s
  let m : List TimeEvent × SFState :=
    match g.main_note with
    | .c ch => generate_chord_events ch r.2.1 tid r.2.2
    | .t tr => generate_triplet_events tr r.2.1 beat tid r.2.2
    | .n n => generate_note_events n r.2.1 tid r.2.2
  (mod_press_events g.modifier start tid ++ r.1 ++ m.1 ++
    mod_release_events g.modifier start tid, m.2)

/-- `_generate_token_events` dispatch. -/
def generate_token_events (pt : PT) (start : ℚ) (beat : ℚ) (tid : ℕ) (s : SFState) :
    List TimeEvent × SFState :=
  match pt with
  | .note n => generate_note_events n start tid s
  | .chord c => generate_chord_events c start tid s
  | .grace g => generate_grace_events g start beat tid s
  | .triplet t => generate_triplet_events t start beat tid s

/-! ## Track timelines, merger and playback encoder -/

/-- The token loop of `_parse_track_timeline`: parse (exceptions here are NOT
caught in the second pass), generate events, advance the time cursor by
`duration * beat`. -/
def gen_tokens_loop (beat : ℚ) (tid : ℕ) :
    List String → ℚ → SFState → Except String (List TimeEvent × ℚ × SFState)
  | [], t, s => .ok ([], t, s)
  | tok :: ts, t, s => do
    let pt? ← parse_token tok
    match pt? with
    | none => gen_tokens_loop beat tid ts t s
    | some pt =>
      let (evs, s1) := generate_token_events pt t beat tid s
      let (rest, t2, s2) ← gen_tokens_loop beat tid ts (t + token_duration pt * beat) s1
      .ok (evs ++ rest, t2, s2)

/-- The measure loop of `_parse_track_timeline` (time cursor runs on across
measures; blank measures skipped). -/
def gen_measures_loop (beat : ℚ) (tid : ℕ) :
    List (List Char) → ℚ → SFState → Except String (List TimeEvent × ℚ × SFState)
  | [], t, s => .ok ([], t, s)
  | m :: ms, t, s =>
    let mt := pyTrim m
    if mt.isEmpty then gen_measures_loop beat tid ms t s
    else do
      let tokens ← tokenize_measure (String.mk mt)
      let (evs, t1, s1) ← gen_tokens_loop beat tid tokens t s
      let (rest, t2, s2) ← gen_measures_loop beat tid ms t1 s1
      .ok (evs ++ rest, t2, s2)

/-- `_parse_track_timeline`: one voice line, time cursor starting at 0, the
sharp/flat state threaded in and out (it is the same shared object for all
voices). -/
def parse_track_timeline (line : List Char) (beat : ℚ) (tid : ℕ) (s : SFState) :
    Except String (List TimeEvent × SFState) := do
  let (evs, _, s1) ← gen_measures_loop beat tid (pySplit '|' (strip_outer_bars line)) 0 s
  .ok (evs, s1)

/-- The voice loop of `_second_pass_generation`: `enumerate` indices count
blank lines too; the accidental state is threaded from each voice into the
next. -/
def tracks_loop (beat : ℚ) :
    List (List Char) → ℕ → SFState → Except String (List (List TimeEvent) × SFState)
  | [], _, s => .ok ([], s)
  | l :: ls, idx, s =>
    let line := pyTrim l
    if line.isEmpty then tracks_loop beat ls (idx + 1) s
    else do
      let (evs, s1) ← parse_track_timeline line beat idx s
      let (rest, s2) ← tracks_loop beat ls (idx + 1) s1
      .ok (evs :: rest, s2)

/-- The sort key of `_merge_track_events`:
`(event.time, event.event_type == 'modifier_press')` — note that this puts
`modifier_press` events AFTER the other kinds at an equal time
(`False < True` in Python). -/
def is_mp (e : TimeEvent) : Bool := e.event_type == EType.modifier_press

def merger_le (a b : TimeEvent) : Bool :=
  decide (a.time < b.time) || (decide (a.time = b.time) && ((!is_mp a) || is_mp b))

/-- `_merge_track_events`: concatenate all voices' events and stable-sort by
`merger_le`. -/
def merge_track_events (tes : List (List TimeEvent)) : List TimeEvent :=
  stableSortBy merger_le tes.flatten

/-- The `priority_order` dictionary of `_add_time_events_to_playback`. -/
def priority_order : EType → ℕ
  | .modifier_press => 0
  | .key_press => 1
  | .modifier_release => 2
  | .key_release => 3

/-- The within-group sort key `(priority_order[...], event.key)`. -/
def prio_key_le (a b : TimeEvent) : Bool :=
  decide (priority_order a.event_type < priority_order b.event_type) ||
    (decide (priority_order a.event_type = priority_order b.event_type) &&
      strLeb a.key b.key)

/-- The deduplication loop of `_add_time_events_to_playback`: one press per
key per group (`seen_keys`), releases always appended, `key_release`
ignored. -/
def add_loop : List TimeEvent → List String → List PbEntry
  | [], _ => []
  | e :: rest, seen =>
    match e.event_type with
    | .key_press =>
      if e.key ∈ seen then add_loop rest seen
      else .press e.key :: add_loop rest (e.key :: seen)
    | .modifier_press =>
      if e.key ∈ seen then add_loop rest seen
      else .press e.key :: add_loop rest (e.key :: seen)
    | .modifier_release => .release e.key :: add_loop rest seen
    | .key_release => add_loop rest seen

/-- `_add_time_events_to_playback` (returning the entries it appends). -/
def add_time_events (g : List TimeEvent) : List PbEntry :=
  add_loop (stableSortBy prio_key_le g) []

/-- Python `round(q, 3)` (round-half-to-even and float representation elide
to round-half-up here; every delay a claim inspects is an exact multiple of
1/1000, where both agree and rounding is the identity). -/
def py_round3 (q : ℚ) : ℚ := (⌊q * 1000 + 1/2⌋ : ℚ) / 1000

/-- The key-press statistic per flushed group. -/
def count_group_presses (g : List TimeEvent) : ℕ :=
  (g.filter (fun e =>
    e.event_type == EType.key_press && note_key_values.contains e.key)).length

/-- The grouping loop of `_generate_final_playback`: events within 1 ms of
the current group's start time join the group; a new time flushes the group
and appends one rounded delay before the next group. -/
def gfp_loop : List TimeEvent → List TimeEvent → ℚ → List PbEntry → ℕ → List PbEntry × ℕ
  | [], group, _, pd, tot =>
    if group.isEmpty then (pd, tot)
    else (pd ++ add_time_events group, tot + count_group_presses group)
  | e :: rest, group, cur, pd, tot =>
    if 1/1000 < rat_abs (e.time - cur) then
      if ¬ group.isEmpty then
        let pd1 := pd ++ add_time_events group
        let tot1 := tot + count_group_presses group
        let pd2 :=
          if cur < e.time then
            (if 0 < e.time - cur then pd1 ++ [.delay (py_round3 (e.time - cur))] else pd1)
          else pd1
        gfp_loop rest [e] e.time pd2 tot1
      else gfp_loop rest [e] e.time pd tot
    else gfp_loop rest (group ++ [e]) cur pd tot

/-- `_generate_final_playback`: flat playback entries, key-press count, and
the total duration (the last event's time). -/
def generate_final_playback (events : List TimeEvent) : List PbEntry × ℕ × ℚ :=
  let (pd, tot) := gfp_loop events [] 0 [] 0
  (pd, tot, ((events.getLast?).map (fun e => e.time)).getD 0)

/-- The observable outcome of `_second_pass_generation` (`datetime` metadata
omitted). -/
structure SuccessData where
  playback_data : List PbEntry
  total_key_presses : ℕ
  duration_seconds : ℚ
  track_count : ℕ
  bpm : Int
  time_signature : String
  total_measures : ℕ
  total_notes : ℕ
deriving DecidableEq, Repr

/-- `_second_pass_generation`. -/
def second_pass_generation (lines : List (List Char)) (fp : FirstPass) :
    Except String SuccessData := do
  let beat : ℚ := 60 / (fp.cfg.bpm : ℚ)
  let (trackEvents, _) ← tracks_loop beat (lines.drop 2) 0 ⟨false, false⟩
  if trackEvents.isEmpty then .error "没有找到有效的音轨数据"
  else
    let merged := merge_track_events trackEvents
    let (pd, tot, dur) := generate_final_playback merged
    .ok ⟨pd, tot, dur, trackEvents.length, fp.cfg.bpm, fp.cfg.time_signature,
      fp.measures.length, fp.total_notes⟩

/-- The result of `parse_content`: failure with the collected error list, or
success with the playback data. -/
inductive ParseResult where
  | failure (errors : List ParseError)
  | success (data : SuccessData)
deriving DecidableEq, Repr

/-- `parse_content`: reset state, split lines, length check, first pass
(gate), second pass.  `Except.error` models a Python exception escaping
`parse_content` uncaught. -/
def parse_content (content : String) : Except String ParseResult := do
  let lines := pySplit '\n' (pyTrim content.toList)
  if lines.length < 3 then
    .ok (.failure [⟨1, 0, "文件内容不完整，至少需要BPM、节拍和一行音符", content⟩])
  else do
    let fp ← first_pass_validation lines
    if ¬ fp.errors.isEmpty then .ok (.failure fp.errors)
    else do
      let sd ← second_pass_generation lines fp
      .ok (.success sd)

/-! ## General lemmas about the sorting and deduplication helpers -/

theorem stInsert_perm (le : α → α → Bool) (a : α) :
    ∀ l : List α, (stInsert le a l).Perm (a :: l)
  | [] => List.Perm.refl _
  | b :: bs => by
    simp only [stInsert]
    split
    · exact List.Perm.refl _
    · exact ((stInsert_perm le a bs).cons b).trans (List.Perm.swap a b bs)

theorem stableSortBy_perm (le : α → α → Bool) :
    ∀ l : List α, (stableSortBy le l).Perm l
  | [] => List.Perm.refl _
  | a :: as =>
    (stInsert_perm le a (stableSortBy le as)).trans ((stableSortBy_perm le as).cons a)

theorem pairwise_stInsert (le : α → α → Bool)
    (htot : ∀ x y, le x y = true ∨ le y x = true)
    (htrans : ∀ x y z, le x y = true → le y z = true → le x z = true) (a : α) :
    ∀ l : List α, l.Pairwise (fun x y => le x y = true) →
      (stInsert le a l).Pairwise (fun x y => le x y = true)
  | [], _ => by simp [stInsert]
  | b :: bs, h => by
    rw [List.pairwise_cons] at h
    obtain ⟨hb, hbs⟩ := h
    by_cases hab : le a b = true
    · simp only [stInsert, hab, if_true]
      refine List.pairwise_cons.mpr ⟨?_, List.pairwise_cons.mpr ⟨hb, hbs⟩⟩
      intro x hx
      rcases List.mem_cons.mp hx with rfl | hx'
      · exact hab
      · exact htrans a b x hab (hb x hx')
    · have hba : le b a = true := (htot a b).resolve_left hab
      simp only [stInsert, hab, if_false]
      refine List.pairwise_cons.mpr ⟨?_, pairwise_stInsert le htot htrans a bs hbs⟩
      intro x hx
      rcases List.mem_cons.mp ((stInsert_perm le a bs).mem_iff.mp hx) with rfl | hx'
      · exact hba
      · exact hb x hx'

theorem pairwise_stableSortBy (le : α → α → Bool)
    (htot : ∀ x y, le x y = true ∨ le y x = true)
    (htrans : ∀ x y z, le x y = true → le y z = true → le x z = true) :
    ∀ l : List α, (stableSortBy le l).Pairwise (fun x y => le x y = true)
  | [] => by simp [stableSortBy]
  | a :: as =>
    pairwise_stInsert le htot htrans a _ (pairwise_stableSortBy le htot htrans as)

theorem listLeb_total : ∀ a b : List Char, listLeb a b = true ∨ listLeb b a = true
  | [], _ => Or.inl rfl
  | _ :: _, [] => Or.inr rfl
  | c :: cs, d :: ds => by
    by_cases h : c = d
    · subst h
      simpa only [listLeb, if_pos rfl] using listLeb_total cs ds
    · rcases lt_or_gt_of_ne h with hlt | hgt
      · left
        simp [listLeb, h, hlt]
      · right
        simp [listLeb, Ne.symm h, hgt]

theorem listLeb_trans :
    ∀ a b c : List Char, listLeb a b = true → listLeb b c = true → listLeb a c = true
  | [], _, _, _, _ => rfl
  | _ :: _, [], _, h1, _ => by simp [listLeb] at h1
  | _ :: _, _ :: _, [], _, h2 => by simp [listLeb] at h2
  | x :: xs, y :: ys, z :: zs, h1, h2 => by
    simp only [listLeb] at h1 h2 ⊢
    by_cases hxy : x = y
    · subst hxy
      rw [if_pos rfl] at h1
      by_cases hxz : x = z
      · subst hxz
        rw [if_pos rfl] at h2 ⊢
        exact listLeb_trans xs ys zs h1 h2
      · rw [if_neg hxz] at h2 ⊢
        exact h2
    · rw [if_neg hxy] at h1
      have hlt : x < y := of_decide_eq_true h1
      by_cases hyz : y = z
      · subst hyz
        rw [if_neg hxy]
        exact decide_eq_true hlt
      · rw [if_neg hyz] at h2
        have hlt2 : y < z := of_decide_eq_true h2
        rw [if_neg (ne_of_lt (lt_trans hlt hlt2))]
        exact decide_eq_true (lt_trans hlt hlt2)

theorem merger_le_total (a b : TimeEvent) : merger_le a b = true ∨ merger_le b a = true := by
  rcases lt_trichotomy a.time b.time with h | h | h
  · left
    simp [merger_le, h]
  · simp only [merger_le, h]
    cases hma : is_mp a <;> cases hmb : is_mp b <;> simp
  · right
    simp [merger_le, h]

theorem merger_le_trans (a b c : TimeEvent) :
    merger_le a b = true → merger_le b c = true → merger_le a c = true := by
  simp only [merger_le, Bool.or_eq_true, Bool.and_eq_true, decide_eq_true_eq]
  rintro (h1 | ⟨h1, h1b⟩) (h2 | ⟨h2, h2b⟩)
  · exact Or.inl (lt_trans h1 h2)
  · exact Or.inl (h2 ▸ h1)
  · exact Or.inl (h1 ▸ h2)
  · refine Or.inr ⟨h1.trans h2, ?_⟩
    cases hma : is_mp a <;> cases hmb : is_mp b <;> cases hmc : is_mp c <;>
      simp_all

theorem prio_key_le_total (a b : TimeEvent) : prio_key_le a b = true ∨ prio_key_le b a = true := by
  rcases lt_trichotomy (priority_order a.event_type) (priority_order b.event_type) with h | h | h
  · left
    simp [prio_key_le, h]
  · rcases listLeb_total a.key.data b.key.data with hk | hk
    · left
      simp [prio_key_le, h, strLeb, String.toList, hk]
    · right
      simp [prio_key_le, h, strLeb, String.toList, hk]
  · right
    simp [prio_key_le, h]

theorem prio_key_le_trans (a b c : TimeEvent) :
    prio_key_le a b = true → prio_key_le b c = true → prio_key_le a c = true := by
  simp only [prio_key_le, Bool.or_eq_true, Bool.and_eq_true, decide_eq_true_eq]
  rintro (h1 | ⟨h1, h1b⟩) (h2 | ⟨h2, h2b⟩)
  · exact Or.inl (lt_trans h1 h2)
  · exact Or.inl (h2 ▸ h1)
  · exact Or.inl (h1 ▸ h2)
  · exact Or.inr ⟨h1.trans h2, listLeb_trans _ _ _ h1b h2b⟩

theorem add_loop_press_not_seen (k : String) :
    ∀ (evs : List TimeEvent) (seen : List String), k ∈ seen →
      (add_loop evs seen).count (.press k) = 0
  | [], _, _ => rfl
  | e :: rest, seen, hk => by
    cases he : e.event_type <;> simp only [add_loop, he]
    · by_cases hs : e.key ∈ seen
      · simp only [if_pos hs]
        exact add_loop_press_not_seen k rest seen hk
      · simp only [if_neg hs]
        have hne : (PbEntry.press k) ≠ (PbEntry.press e.key) := by
          intro h
          injection h with h2
          exact hs (h2 ▸ hk)
        rw [List.count_cons_of_ne hne]
        exact add_loop_press_not_seen k rest (e.key :: seen) (List.mem_cons_of_mem _ hk)
    · exact add_loop_press_not_seen k rest seen hk
    · by_cases hs : e.key ∈ seen
      · simp only [if_pos hs]
        exact add_loop_press_not_seen k rest seen hk
      · simp only [if_neg hs]
        have hne : (PbEntry.press k) ≠ (PbEntry.press e.key) := by
          intro h
          injection h with h2
          exact hs (h2 ▸ hk)
        rw [List.count_cons_of_ne hne]
        exact add_loop_press_not_seen k rest (e.key :: seen) (List.mem_cons_of_mem _ hk)
    · rw [List.count_cons_of_ne (by simp)]
      exact add_loop_press_not_seen k rest seen hk

theorem add_loop_press_le_one (k : String) :
    ∀ (evs : List TimeEvent) (seen : List String),
      (add_loop evs seen).count (.press k) ≤ 1
  | [], _ => by simp [add_loop]
  | e :: rest, seen => by
    cases he : e.event_type <;> simp only [add_loop, he]
    · by_cases hs : e.key ∈ seen
      · simp only [if_pos hs]
        exact add_loop_press_le_one k rest seen
      · simp only [if_neg hs]
        by_cases hek : e.key = k
        · subst hek
          have h0 := add_loop_press_not_seen e.key rest (e.key :: seen) (List.mem_cons_self _ _)
          simp [List.count_cons, h0]
        · rw [List.count_cons_of_ne (by
            intro h
            injection h with h2
            exact hek h2.symm)]
          exact add_loop_press_le_one k rest (e.key :: seen)
    · exact add_loop_press_le_one k rest seen
    · by_cases hs : e.key ∈ seen
      · simp only [if_pos hs]
        exact add_loop_press_le_one k rest seen
      · simp only [if_neg hs]
        by_cases hek : e.key = k
        · subst hek
          have h0 := add_loop_press_not_seen e.key rest (e.key :: seen) (List.mem_cons_self _ _)
          simp [List.count_cons, h0]
        · rw [List.count_cons_of_ne (by
            intro h
            injection h with h2
            exact hek h2.symm)]
          exact add_loop_press_le_one k rest (e.key :: seen)
    · rw [List.count_cons_of_ne (by simp)]
      exact add_loop_press_le_one k rest seen

theorem add_loop_no_delay (d : ℚ) :
    ∀ (evs : List TimeEvent) (seen : List String),
      (add_loop evs seen).count (.delay d) = 0
  | [], _ => rfl
  | e :: rest, seen => by
    cases he : e.event_type <;> simp only [add_loop, he]
    · by_cases hs : e.key ∈ seen
      · simp only [if_pos hs]
        exact add_loop_no_delay d rest seen
      · simp only [if_neg hs]
        rw [List.count_cons_of_ne (by simp)]
        exact add_loop_no_delay d rest (e.key :: seen)
    · exact add_loop_no_delay d rest seen
    · by_cases hs : e.key ∈ seen
      · simp only [if_pos hs]
        exact add_loop_no_delay d rest seen
      · simp only [if_neg hs]
        rw [List.count_cons_of_ne (by simp)]
        exact add_loop_no_delay d rest (e.key :: seen)
    · rw [List.count_cons_of_ne (by simp)]
      exact add_loop_no_delay d rest seen

/-! ## Lemmas about the chord event filter -/

theorem note_to_key_mem (p : ℕ) (k : String) (h : note_to_key p = some k) :
    k ∈ note_key_values := by
  unfold note_to_key at h
  split_ifs at h <;> (simp only [Option.some.injEq] at h; subst h; decide)

theorem note_to_key_not_toggle (p : ℕ) (k : String) (h : note_to_key p = some k) :
    (k == "+" || k == "-") = false := by
  unfold note_to_key at h
  split_ifs at h <;> (simp only [Option.some.injEq] at h; subst h; rfl)

theorem modifier_keys_not_toggle (m mk : String) (h : modifier_keys m = some mk) :
    (mk == "+" || mk == "-") = false := by
  unfold modifier_keys at h
  split_ifs at h <;> (simp only [Option.some.injEq] at h; subst h; rfl)

theorem acc_transition_filter (acc : String) (start : ℚ) (tid : ℕ) (s : SFState) :
    ((acc_transition acc start tid s).1).filter chord_keep = [] := by
  unfold acc_transition
  split_ifs <;> rfl

theorem mod_press_events_filter (m : String) (start : ℚ) (tid : ℕ) :
    (mod_press_events m start tid).filter chord_keep = [] := by
  unfold mod_press_events
  cases h : modifier_keys m <;> rfl

theorem mod_release_events_filter (m : String) (start : ℚ) (tid : ℕ) :
    (mod_release_events m start tid).filter chord_keep = [] := by
  unfold mod_release_events
  cases h : modifier_keys m <;> rfl

theorem pitch_events_filter (p : ℕ) (start : ℚ) (tid : ℕ) :
    (pitch_events p start tid).filter chord_keep = pitch_events p start tid := by
  unfold pitch_events
  cases h : note_to_key p with
  | none => rfl
  | some k =>
    have hm := note_to_key_mem p k h
    simp [List.filter, chord_keep, hm]

theorem note_events_filter (n : Note) (start : ℚ) (tid : ℕ) (s : SFState) :
    ((generate_note_events n start tid s).1).filter chord_keep =
      (if n.is_rest = true then [] else pitch_events n.pitch start tid) := by
  unfold generate_note_events
  by_cases hr : n.is_rest
  · simp [hr]
  · simp only [hr, Bool.false_eq_true, if_false, if_neg]
    simp [List.filter_append, acc_transition_filter, mod_press_events_filter,
      mod_release_events_filter, pitch_events_filter]

theorem chord_note_loop_events (start : ℚ) (tid : ℕ) :
    ∀ (ns : List Note) (s : SFState),
      (chord_note_loop start tid ns s).1 =
        ns.flatMap (fun n => if n.is_rest = true then [] else pitch_events n.pitch start tid)
  | [], _ => rfl
  | n :: ns, s => by
    simp only [chord_note_loop, List.flatMap_cons]
    rw [note_events_filter, chord_note_loop_events start tid ns _]

theorem pitch_events_no_toggle (p : ℕ) (start : ℚ) (tid : ℕ) :
    (pitch_events p start tid).filter (fun e => e.key == "+" || e.key == "-") = [] := by
  unfold pitch_events
  cases h : note_to_key p with
  | none => rfl
  | some k =>
    simp [List.filter, note_to_key_not_toggle p k h]

theorem mod_press_events_no_toggle (m : String) (start : ℚ) (tid : ℕ) :
    (mod_press_events m start tid).filter (fun e => e.key == "+" || e.key == "-") = [] := by
  unfold mod_press_events
  cases h : modifier_keys m with
  | none => rfl
  | some mk =>
    simp [List.filter, modifier_keys_not_toggle m mk h]

theorem mod_release_events_no_toggle (m : String) (start : ℚ) (tid : ℕ) :
    (mod_release_events m start tid).filter (fun e => e.key == "+" || e.key == "-") = [] := by
  unfold mod_release_events
  cases h : modifier_keys m with
  | none => rfl
  | some mk =>
    simp [List.filter, modifier_keys_not_toggle m mk h]

theorem chord_note_loop_no_toggle (start : ℚ) (tid : ℕ) (ns : List Note) (s : SFState) :
    ((chord_note_loop start tid ns s).1).filter (fun e => e.key == "+" || e.key == "-") = [] := by
  rw [chord_note_loop_events]
  induction ns with
  | nil => rfl
  | cons n ns ih =>
    simp only [List.flatMap_cons, List.filter_append, ih, List.append_nil]
    by_cases hr : n.is_rest = true
    · simp [hr]
    · simp only [hr, if_false, Bool.false_eq_true]
      exact pitch_events_no_toggle n.pitch start tid

/-! ## Lemma: every parse failure of a token is collected by the validator -/

theorem scan_tokens_error_mem (li pi : ℕ) (m : String) :
    ∀ (tokens : List String) (t e : String), t ∈ tokens → parse_token t = .error e →
      (⟨li, pi, "音符语法错误: '" ++ t ++ "' - " ++ e, m⟩ : ParseError) ∈
        (scan_tokens li pi m tokens).1
  | [], t, e, hmem, _ => absurd hmem (List.not_mem_nil t)
  | t0 :: ts, t, e, hmem, he => by
    rcases List.mem_cons.mp hmem with rfl | hmem'
    · simp only [scan_tokens, he]
      exact List.mem_cons_self _ _
    · have ih := scan_tokens_error_mem li pi m ts t e hmem' he
      simp only [scan_tokens]
      cases hp : parse_token t0 with
      | error e0 => exact List.mem_cons_of_mem _ ih
      | ok pt? => cases pt? <;> simpa using ih

/-- Shared helper: a successful first pass splits its error list as
config-check errors (BPM first, then time signature) followed by the
measure-validation errors. -/
theorem first_pass_ok_shape (lines : List (List Char)) (fp : FirstPass)
    (h : first_pass_validation lines = .ok fp) :
    ∃ v, validate_all (header_config lines) (collect_measures 3 (lines.drop 2)) = .ok v ∧
      fp.errors =
        (bpm_check (lines.getD 0 [])).1 ++ (beats_check (lines.getD 1 [])).1 ++ v.1 := by
  unfold first_pass_validation at h
  split at h
  · exact absurd h (by simp)
  · refine ⟨_, (by assumption), ?_⟩
    have h2 := (Except.ok.inj h).symm
    rw [h2]

/-- Shared helper: when the first pass returns a non-empty error list,
`parse_content` returns the failure result carrying exactly that list. -/
theorem parse_content_failure_of_errors (content : String) (fp : FirstPass)
    (hfp : first_pass_validation (pySplit '\n' (pyTrim content.toList)) = .ok fp)
    (hlen : 3 ≤ (pySplit '\n' (pyTrim content.toList)).length)
    (hne : fp.errors ≠ []) :
    parse_content content = .ok (.failure fp.errors) := by
  have hisEmpty : fp.errors.isEmpty = false := by
    cases h : fp.errors with
    | nil => exact absurd h hne
    | cons a l => rfl
  simp only [parse_content, hfp]
  rw [if_neg (by omega)]
  show (if ¬ fp.errors.isEmpty = true then Except.ok (ParseResult.failure fp.errors)
    else do
      let sd ← second_pass_generation (pySplit '\n' (pyTrim content.toList)) fp
      Except.ok (ParseResult.success sd)) = Except.ok (ParseResult.failure fp.errors)
  rw [if_pos (by simp [hisEmpty])]

/-! ## Claims -/

/-- C3: for a triplet whose total allotted span is `T` integer milliseconds,
the three sub-element spans are `[T / 3, T / 3, T / 3 + T % 3]` — they sum to
`T` with the remainder entirely in the third span (`T = 100` gives
`[33, 33, 34]`) — and the three sub-elements are emitted at cumulative
offsets `0`, `span1`, `span1 + span2` seconds from the triplet's start. -/
theorem c3_triplet_subdivision :
    (∀ T : ℕ, (triplet_spans T).sum = T) ∧
    (∀ T : ℕ, triplet_spans T = [T / 3, T / 3, T / 3 + T % 3]) ∧
    triplet_spans 100 = [33, 33, 34] ∧
    (∀ (tid : ℕ) (durs : List ℕ) (nc1 nc2 nc3 : NC) (t : ℚ),
      triplet_loop tid durs [nc1, nc2, nc3] t 0 =
        triplet_nc_events nc1 t tid ++
          triplet_nc_events nc2 (t + ((durs.getD 0 0 : ℕ) : ℚ) / 1000) tid ++
          triplet_nc_events nc3 (t + ((durs.getD 0 0 : ℕ) : ℚ) / 1000 +
            ((durs.getD 1 0 : ℕ) : ℚ) / 1000) tid) ∧
    (∀ (n1 n2 n3 : Note) (k1 k2 k3 : String) (dur : String) (start beat : ℚ) (tid : ℕ),
      n1.is_rest = false → n2.is_rest = false → n3.is_rest = false →
      note_to_key n1.pitch = some k1 → note_to_key n2.pitch = some k2 →
      note_to_key n3.pitch = some k3 →
      generate_triplet_events ⟨[.n n1, .n n2, .n n3], dur, "", ""⟩ start beat tid
          ⟨false, false⟩ =
        ([⟨start, .key_press, k1, tid⟩,
          ⟨start + ((triplet_total_ms dur beat / 3 : ℕ) : ℚ) / 1000, .key_press, k2, tid⟩,
          ⟨start + ((triplet_total_ms dur beat / 3 : ℕ) : ℚ) / 1000 +
            ((triplet_total_ms dur beat / 3 : ℕ) : ℚ) / 1000, .key_press, k3, tid⟩],
         ⟨false, false⟩)) := by
  refine ⟨?_, fun T => rfl, by decide, ?_, ?_⟩
  · intro T
    simp only [triplet_spans, List.sum_cons, List.sum_nil]
    omega
  · intro tid durs nc1 nc2 nc3 t
    simp [triplet_loop]
  · intro n1 n2 n3 k1 k2 k3 dur start beat tid h1 h2 h3 hk1 hk2 hk3
    simp [generate_triplet_events, mod_press_events, mod_release_events, modifier_keys,
      acc_transition, triplet_loop, triplet_nc_events, triplet_spans, h1, h2, h3,
      hk1, hk2, hk3]

/-- Witness for C3 at the parsed triplet `<123>` with one beat of 1/2 s:
total span 500 ms, spans 166/166/168, key presses at 0 s, 0.166 s, 0.332 s. -/
theorem c3_triplet_subdivision_witness :
    generate_triplet_events
        ⟨[.n ⟨1, "", "", "", "", false⟩, .n ⟨2, "", "", "", "", false⟩,
          .n ⟨3, "", "", "", "", false⟩], "", "", ""⟩ 0 (1/2) 0 ⟨false, false⟩ =
      ([⟨0, .key_press, "Q", 0⟩,
        ⟨0 + ((triplet_total_ms "" (1/2) / 3 : ℕ) : ℚ) / 1000, .key_press, "W", 0⟩,
        ⟨0 + ((triplet_total_ms "" (1/2) / 3 : ℕ) : ℚ) / 1000 +
          ((triplet_total_ms "" (1/2) / 3 : ℕ) : ℚ) / 1000, .key_press, "E", 0⟩],
       ⟨false, false⟩) :=
  c3_triplet_subdivision.2.2.2.2 ⟨1, "", "", "", "", false⟩ ⟨2, "", "", "", "", false⟩
    ⟨3, "", "", "", "", false⟩ "Q" "W" "E" "" 0 (1/2) 0 rfl rfl rfl rfl rfl rfl

/-- C7 counterexample: the sharp chord `#[135]`, generated from the natural
state, transitions the accidental state machine to sharp (a toggle was
required) yet the emitted events are exactly the three pitch key presses —
no `+` key_press appears in the output, contrary to the claim. -/
theorem c7_counterexample :
    parse_chord "#[135]" = .ok ⟨[⟨1, "", "#", "", "", false⟩, ⟨3, "", "#", "", "", false⟩,
      ⟨5, "", "#", "", "", false⟩], "", ""⟩ ∧
    generate_chord_events ⟨[⟨1, "", "#", "", "", false⟩, ⟨3, "", "#", "", "", false⟩,
        ⟨5, "", "#", "", "", false⟩], "", ""⟩ 0 0 ⟨false, false⟩ =
      ([⟨0, .key_press, "Q", 0⟩, ⟨0, .key_press, "E", 0⟩, ⟨0, .key_press, "T", 0⟩],
       ⟨true, false⟩) :=
  ⟨rfl, rfl⟩

/-- C7 (amended): chord generation performs the accidental state transitions
of its notes, but filters the emitted events down to pitch-key presses: the
output is the optional modifier press, exactly one key_press per contained
non-rest note with a mapped pitch — all at the chord's start time — and the
optional modifier release; the `+`/`-` accidental toggles never appear in
the output. -/
theorem c7_chord_emission (chord : Chord) (start : ℚ) (tid : ℕ) (s : SFState) :
    (generate_chord_events chord start tid s).1 =
      mod_press_events chord.modifier start tid ++
        chord.notes.flatMap
          (fun n => if n.is_rest = true then [] else pitch_events n.pitch start tid) ++
        mod_release_events chord.modifier start tid ∧
    ((generate_chord_events chord start tid s).1).filter
      (fun e => e.key == "+" || e.key == "-") = [] := by
  constructor
  · simp [generate_chord_events, chord_note_loop_events]
  · simp [generate_chord_events, List.filter_append, mod_press_events_no_toggle,
      mod_release_events_no_toggle, chord_note_loop_no_toggle]

/-- C8: within one flushed simultaneous group the encoder emits at most one
press token per key (deduplication) and never a delay number; the document
whose single sounding token is the chord `[135]` encodes as exactly three
key tokens (sorted `E`, `Q`, `T`) with no delay between them. -/
theorem c8_group_encoding :
    (∀ (g : List TimeEvent) (k : String), (add_time_events g).count (.press k) ≤ 1) ∧
    (∀ (g : List TimeEvent) (d : ℚ), (add_time_events g).count (.delay d) = 0) ∧
    parse_content "120\n4/4\n|[135] 0 0 0|" =
      .ok (.success ⟨[.press "E", .press "Q", .press "T"], 3, 0, 1, 120, "4/4", 1, 6⟩) :=
  ⟨fun _ k => add_loop_press_le_one k _ [],
   fun _ d => add_loop_no_delay d _ [],
   by with_unfolding_all rfl⟩

/-- C10: timeline generation of a plain note is independent of its octave
marker — two notes differing only in `octave` generate identical event lists
and states — and the emitted key comes from the fixed map
1..7 ↦ Q W E R T Y U. -/
theorem c10_octave_invariance :
    (∀ (p : ℕ) (o1 o2 acc dur mo : String) (r : Bool) (start : ℚ) (tid : ℕ) (s : SFState),
      generate_note_events ⟨p, o1, acc, dur, mo, r⟩ start tid s =
        generate_note_events ⟨p, o2, acc, dur, mo, r⟩ start tid s) ∧
    note_to_key 1 = some "Q" ∧ note_to_key 2 = some "W" ∧ note_to_key 3 = some "E" ∧
    note_to_key 4 = some "R" ∧ note_to_key 5 = some "T" ∧ note_to_key 6 = some "Y" ∧
    note_to_key 7 = some "U" :=
  ⟨fun _ _ _ _ _ _ _ _ _ _ => rfl, rfl, rfl, rfl, rfl, rfl, rfl, rfl⟩

/-- C4: the accidental state machine — a `#` node emits a `+` key_press and
becomes sharp only when not already sharp (already-sharp suppresses the
toggle and leaves the state untouched); `b` analogously with `-`; an
unmarked non-rest node emits the opposite toggle when sharp or flat and
returns to natural; and the state is threaded sequentially across voices, so
a voice ending sharp suppresses the `+` of the next voice's first sharp
note (concretely: voice `#1 #1 #1 #1` ends sharp, and voice `#2 2 2 2`
generated from that state emits no `+` at all). -/
theorem c4_accidental_machine :
    (∀ (n : Note) (start : ℚ) (tid : ℕ) (s : SFState),
      n.is_rest = false → n.accidental = "#" → s.sharp = false →
        (generate_note_events n start tid s).2 = ⟨true, false⟩ ∧
        (⟨start, .key_press, "+", tid⟩ : TimeEvent) ∈ (generate_note_events n start tid s).1) ∧
    (∀ (n : Note) (start : ℚ) (tid : ℕ) (s : SFState),
      n.is_rest = false → n.accidental = "#" → s.sharp = true →
        (generate_note_events n start tid s).2 = s ∧
        ((generate_note_events n start tid s).1).filter
          (fun e => e.key == "+" || e.key == "-") = []) ∧
    (∀ (n : Note) (start : ℚ) (tid : ℕ) (s : SFState),
      n.is_rest = false → n.accidental = "b" → s.flat = false →
        (generate_note_events n start tid s).2 = ⟨false, true⟩ ∧
        (⟨start, .key_press, "-", tid⟩ : TimeEvent) ∈ (generate_note_events n start tid s).1) ∧
    (∀ (n : Note) (start : ℚ) (tid : ℕ) (s : SFState),
      n.is_rest = false → n.accidental = "b" → s.flat = true →
        (generate_note_events n start tid s).2 = s ∧
        ((generate_note_events n start tid s).1).filter
          (fun e => e.key == "+" || e.key == "-") = []) ∧
    (∀ (n : Note) (start : ℚ) (tid : ℕ) (s : SFState),
      n.is_rest = false → n.accidental = "" → s.sharp = true →
        (generate_note_events n start tid s).2 = ⟨false, false⟩ ∧
        (⟨start, .key_press, "-", tid⟩ : TimeEvent) ∈ (generate_note_events n start tid s).1) ∧
    (∀ (n : Note) (start : ℚ) (tid : ℕ) (s : SFState),
      n.is_rest = false → n.accidental = "" → s.sharp = false → s.flat = true →
        (generate_note_events n start tid s).2 = ⟨false, false⟩ ∧
        (⟨start, .key_press, "+", tid⟩ : TimeEvent) ∈ (generate_note_events n start tid s).1) ∧
    ((parse_track_timeline ("#1 #1 #1 #1".toList) (1/2) 0 ⟨false, false⟩).map
        (fun p => p.2) = .ok ⟨true, false⟩) ∧
    ((parse_track_timeline ("#2 2 2 2".toList) (1/2) 1 ⟨true, false⟩).map
        (fun p => (p.1.filter (fun e => e.key == "+")).length) = .ok 0) := by
  refine ⟨?_, ?_, ?_, ?_, ?_, ?_, ?_, ?_⟩
  · intro n start tid s hr ha hs
    constructor
    · simp [generate_note_events, hr, acc_transition, ha, hs]
    · simp [generate_note_events, hr, acc_transition, ha, hs]
  · intro n start tid s hr ha hs
    constructor
    · simp [generate_note_events, hr, acc_transition, ha, hs]
    · simp [generate_note_events, hr, acc_transition, ha, hs, List.filter_append,
        mod_press_events_no_toggle, mod_release_events_no_toggle, pitch_events_no_toggle]
  · intro n start tid s hr ha hs
    constructor
    · simp [generate_note_events, hr, acc_transition, ha, hs]
    · simp [generate_note_events, hr, acc_transition, ha, hs]
  · intro n start tid s hr ha hs
    constructor
    · simp [generate_note_events, hr, acc_transition, ha, hs]
    · simp [generate_note_events, hr, acc_transition, ha, hs, List.filter_append,
        mod_press_events_no_toggle, mod_release_events_no_toggle, pitch_events_no_toggle]
  · intro n start tid s hr ha hs
    constructor
    · simp [generate_note_events, hr, acc_transition, ha, hs]
    · simp [generate_note_events, hr, acc_transition, ha, hs]
  · intro n start tid s hr ha hs hf
    constructor
    · simp [generate_note_events, hr, acc_transition, ha, hs, hf]
    · simp [generate_note_events, hr, acc_transition, ha, hs, hf]
  · with_unfolding_all rfl
  · with_unfolding_all rfl

/-- Witness for C4 at the note `#1` played from the natural state. -/
theorem c4_accidental_machine_witness :
    (generate_note_events ⟨1, "", "#", "", "", false⟩ 0 0 ⟨false, false⟩).2 = ⟨true, false⟩ ∧
    (⟨0, .key_press, "+", 0⟩ : TimeEvent) ∈
      (generate_note_events ⟨1, "", "#", "", "", false⟩ 0 0 ⟨false, false⟩).1 :=
  c4_accidental_machine.1 ⟨1, "", "#", "", "", false⟩ 0 0 ⟨false, false⟩ rfl rfl rfl

/-- C2: the duration table — no suffix 1.0, `_` 0.5, `__` 0.25, `_.` 0.75
(`__.` 0.375), lone `.` 1.5 — and measure validation: the collected errors
are exactly the per-token parse errors followed by a duration-mismatch error
reporting expected and actual if and only if the summed duration differs
from `beats_per_measure` by more than 0.001; with no parse errors the
measure passes iff the sum is within the tolerance. -/
theorem c2_duration_table_and_check :
    (get_dur_value "" = 1 ∧ get_dur_value "_" = 1/2 ∧ get_dur_value "__" = 1/4 ∧
      get_dur_value "_." = 3/4 ∧ get_dur_value "__." = 3/8 ∧ get_dur_value "." = 3/2) ∧
    (∀ (cfg : Config) (m : String) (li pi : ℕ) (tokens : List String),
      tokenize_measure m = .ok tokens →
      validate_measure cfg m li pi = .ok
        ((scan_tokens li pi m tokens).1 ++
          (if 1/1000 <
              rat_abs ((scan_tokens li pi m tokens).2.1 - (cfg.beats_per_measure : ℚ)) then
            [⟨li, pi, duration_mismatch_msg (cfg.beats_per_measure : ℚ)
              (scan_tokens li pi m tokens).2.1, m⟩]
          else []), (scan_tokens li pi m tokens).2.2)) ∧
    (∀ (cfg : Config) (m : String) (li pi : ℕ) (tokens : List String),
      tokenize_measure m = .ok tokens →
      (scan_tokens li pi m tokens).1 = [] →
      (validate_measure cfg m li pi = .ok ([], (scan_tokens li pi m tokens).2.2) ↔
        rat_abs ((scan_tokens li pi m tokens).2.1 - (cfg.beats_per_measure : ℚ)) ≤ 1/1000)) := by
  refine ⟨⟨?_, ?_, ?_, ?_, ?_, ?_⟩, ?_, ?_⟩
  · with_unfolding_all rfl
  · with_unfolding_all rfl
  · with_unfolding_all rfl
  · with_unfolding_all rfl
  · with_unfolding_all rfl
  · with_unfolding_all rfl
  · intro cfg m li pi tokens ht
    unfold validate_measure
    rw [ht]
    rfl
  · intro cfg m li pi tokens ht hnil
    have h2 : validate_measure cfg m li pi = .ok
        ((scan_tokens li pi m tokens).1 ++
          (if 1/1000 <
              rat_abs ((scan_tokens li pi m tokens).2.1 - (cfg.beats_per_measure : ℚ)) then
            [⟨li, pi, duration_mismatch_msg (cfg.beats_per_measure : ℚ)
              (scan_tokens li pi m tokens).2.1, m⟩]
          else []), (scan_tokens li pi m tokens).2.2) := by
      unfold validate_measure
      rw [ht]
      rfl
    rw [h2, hnil]
    simp only [List.nil_append]
    constructor
    · intro heq
      by_contra hgt
      push_neg at hgt
      rw [if_pos hgt] at heq
      simp at heq
    · intro hle
      rw [if_neg (not_lt.mpr hle)]

/-- Witness for C2: the measure `1 1 1 1` in 4/4 validates with no errors. -/
theorem c2_duration_table_and_check_witness :
    validate_measure ⟨120, "4/4", 4, 4⟩ "1 1 1 1" 3 0 =
      .ok ([], (scan_tokens 3 0 "1 1 1 1" ["1", "1", "1", "1"]).2.2) :=
  (c2_duration_table_and_check.2.2 ⟨120, "4/4", 4, 4⟩ "1 1 1 1" 3 0 ["1", "1", "1", "1"]
    (by rfl) (by with_unfolding_all rfl)).mpr
    (by with_unfolding_all exact of_decide_eq_true rfl)

/-- C1 counterexample: a measure with an unmatched chord bracket makes the
tokenizer raise a `ValueError` that escapes `parse_content` uncaught — the
result is an exception, not a returned failure carrying a collected error. -/
theorem c1_counterexample :
    parse_content "120\n4/4\n|[12|" = .error "未匹配的和弦括号: [12" := by
  with_unfolding_all rfl

/-- C1 (amended): when every measure tokenizes (so no tokenizer exception is
raised), all first-pass errors are collected into one list, and any
non-empty error list makes `parse_content` return the failure result with
the complete list — generation is never attempted. -/
theorem c1_errors_collected (content : String) (fp : FirstPass)
    (hfp : first_pass_validation (pySplit '\n' (pyTrim content.toList)) = .ok fp)
    (hlen : 3 ≤ (pySplit '\n' (pyTrim content.toList)).length)
    (hne : fp.errors ≠ []) :
    parse_content content = .ok (.failure fp.errors) :=
  parse_content_failure_of_errors content fp hfp hlen hne

/-- Witness for C1 at a document whose measure has a bad token and a bad
duration: both collected errors come back in one failure result. -/
theorem c1_errors_collected_witness :
    parse_content "120\n4/4\n|8 1 1 1|" = .ok (.failure
      [⟨3, 0, "音符语法错误: '8' - 音符格式错误: 8", "8 1 1 1"⟩,
       ⟨3, 0, "小节时值不匹配: 期望4拍，实际3拍", "8 1 1 1"⟩]) :=
  c1_errors_collected "120\n4/4\n|8 1 1 1|"
    ⟨⟨120, "4/4", 4, 4⟩,
     [⟨3, 0, "音符语法错误: '8' - 音符格式错误: 8", "8 1 1 1"⟩,
      ⟨3, 0, "小节时值不匹配: 期望4拍，实际3拍", "8 1 1 1"⟩],
     [(3, 0, "8 1 1 1".toList)], 3⟩
    (by with_unfolding_all rfl) (by decide) (by simp)

/-- C5 counterexample: with BPM=400 the returned failure list contains, after
the config error, a duration-mismatch error from line 3 — the voice line WAS
tokenized and validated before the failure was reported, so the config check
does not block further processing. -/
theorem c5_counterexample :
    parse_content "400\n4/4\n|1 1 1|" = .ok (.failure
      [⟨1, 0, "BPM值无效: 400，应在1-300之间", "400"⟩,
       ⟨3, 0, "小节时值不匹配: 期望4拍，实际3拍", "1 1 1"⟩]) := by
  with_unfolding_all rfl

/-- C5 (amended): a BPM outside 1–300 always makes the parse fail, with the
BPM config error first in the returned error list; but the config check does
not stop the first pass — the voices are still tokenized and validated and
their errors are appended behind it before the failure result is returned. -/
theorem c5_bpm_error_first (content : String) (fp : FirstPass) (b : Int)
    (hfp : first_pass_validation (pySplit '\n' (pyTrim content.toList)) = .ok fp)
    (hlen : 3 ≤ (pySplit '\n' (pyTrim content.toList)).length)
    (hb : pyParseInt (pyTrim ((pySplit '\n' (pyTrim content.toList)).getD 0 [])) = some b)
    (hout : b ≤ 0 ∨ 300 < b) :
    (∃ rest, fp.errors =
      (⟨1, 0, "BPM值无效: " ++ toString b ++ "，应在1-300之间",
        String.mk ((pySplit '\n' (pyTrim content.toList)).getD 0 [])⟩ : ParseError) :: rest) ∧
    parse_content content = .ok (.failure fp.errors) := by
  obtain ⟨v, hva, herr⟩ := first_pass_ok_shape _ fp hfp
  have hb1 : (bpm_check ((pySplit '\n' (pyTrim content.toList)).getD 0 [])).1 =
      [⟨1, 0, "BPM值无效: " ++ toString b ++ "，应在1-300之间",
        String.mk ((pySplit '\n' (pyTrim content.toList)).getD 0 [])⟩] := by
    unfold bpm_check
    simp only [hb]
    rw [if_pos hout]
  constructor
  · refine ⟨(beats_check ((pySplit '\n' (pyTrim content.toList)).getD 1 [])).1 ++ v.1, ?_⟩
    rw [herr, hb1]
    simp
  · refine parse_content_failure_of_errors content fp hfp hlen ?_
    rw [herr, hb1]
    simp

/-- Witness for C5 at the document `400 / 4/4 / |1 1 1|`. -/
theorem c5_bpm_error_first_witness :
    (∃ rest, (FirstPass.errors ⟨⟨400, "4/4", 4, 4⟩,
      [⟨1, 0, "BPM值无效: 400，应在1-300之间", "400"⟩,
       ⟨3, 0, "小节时值不匹配: 期望4拍，实际3拍", "1 1 1"⟩],
      [(3, 0, "1 1 1".toList)], 3⟩) =
      (⟨1, 0, "BPM值无效: " ++ toString (400 : Int) ++ "，应在1-300之间",
        String.mk ((pySplit '\n' (pyTrim ("400\n4/4\n|1 1 1|".toList))).getD 0 [])⟩ :
          ParseError) :: rest) ∧
    parse_content "400\n4/4\n|1 1 1|" = .ok (.failure (FirstPass.errors ⟨⟨400, "4/4", 4, 4⟩,
      [⟨1, 0, "BPM值无效: 400，应在1-300之间", "400"⟩,
       ⟨3, 0, "小节时值不匹配: 期望4拍，实际3拍", "1 1 1"⟩],
      [(3, 0, "1 1 1".toList)], 3⟩)) :=
  c5_bpm_error_first "400\n4/4\n|1 1 1|"
    ⟨⟨400, "4/4", 4, 4⟩,
     [⟨1, 0, "BPM值无效: 400，应在1-300之间", "400"⟩,
      ⟨3, 0, "小节时值不匹配: 期望4拍，实际3拍", "1 1 1"⟩],
     [(3, 0, "1 1 1".toList)], 3⟩ 400
    (by with_unfolding_all rfl) (by decide) (by rfl) (by decide)

/-- C9 counterexample: the character `x` is outside the token alphabet, yet
the tokenizer silently discards it — `1x111` tokenizes to four plain notes,
the measure validates with no error at all, and the whole document parses
successfully.  No syntax error is produced. -/
theorem c9_counterexample :
    tokenize_measure "1x111" = .ok ["1", "1", "1", "1"] ∧
    validate_measure ⟨120, "4/4", 4, 4⟩ "1x111" 3 0 = .ok ([], 4) ∧
    parse_content "120\n4/4\n|1x111|" = .ok (.success
      ⟨[.press "Q", .delay (1/2), .press "Q", .delay (1/2), .press "Q", .delay (1/2),
        .press "Q"], 4, 3/2, 1, 120, "4/4", 1, 4⟩) :=
  ⟨by rfl, by with_unfolding_all rfl, by with_unfolding_all rfl⟩

/-- C9 (amended): every token the tokenizer does produce that fails its
grammar yields a collected syntax error whose message names the offending
token (characters that cannot begin or extend a token are silently dropped
by the tokenizer instead). -/
theorem c9_parse_errors_named (cfg : Config) (m : String) (li pi : ℕ)
    (tokens : List String) (t e : String)
    (ht : tokenize_measure m = .ok tokens) (hmem : t ∈ tokens)
    (he : parse_token t = .error e) :
    ∃ errs n, validate_measure cfg m li pi = .ok (errs, n) ∧
      ∃ pe ∈ errs, ∃ pre post : String, pe.message = pre ++ t ++ post := by
  refine ⟨(scan_tokens li pi m tokens).1 ++
      (if 1/1000 <
          rat_abs ((scan_tokens li pi m tokens).2.1 - (cfg.beats_per_measure : ℚ)) then
        [⟨li, pi, duration_mismatch_msg (cfg.beats_per_measure : ℚ)
          (scan_tokens li pi m tokens).2.1, m⟩]
      else []), (scan_tokens li pi m tokens).2.2, ?_, ?_⟩
  · unfold validate_measure
    rw [ht]
    rfl
  · exact ⟨⟨li, pi, "音符语法错误: '" ++ t ++ "' - " ++ e, m⟩,
      List.mem_append_left _ (scan_tokens_error_mem li pi m tokens t e hmem he),
      "音符语法错误: '", "' - " ++ e, by simp [String.append_assoc]⟩

/-- Witness for C9 at the out-of-range token `8`. -/
theorem c9_parse_errors_named_witness :
    ∃ errs n, validate_measure ⟨120, "4/4", 4, 4⟩ "8 1 1 1" 3 0 = .ok (errs, n) ∧
      ∃ pe ∈ errs, ∃ pre post : String, pe.message = pre ++ "8" ++ post :=
  c9_parse_errors_named ⟨120, "4/4", 4, 4⟩ "8 1 1 1" 3 0 ["8", "1", "1", "1"] "8"
    "音符格式错误: 8" (by rfl) (by simp) (by rfl)

/-- C6 counterexample: the merger's sort key is
`(time, event_type == 'modifier_press')`, so at an equal time a
`modifier_press` is placed AFTER a `key_press` even though the claimed
priority puts `modifier_press` (0) before `key_press` (1) — the merged
sequence is not sorted by `(time, priority)`. -/
theorem c6_counterexample :
    merge_track_events [[⟨0, .modifier_press, "shift", 0⟩], [⟨0, .key_press, "Q", 1⟩]] =
      [⟨0, .key_press, "Q", 1⟩, ⟨0, .modifier_press, "shift", 0⟩] ∧
    priority_order .modifier_press < priority_order .key_press :=
  ⟨by with_unfolding_all rfl, by decide⟩

/-- C6 (amended): the merger produces a permutation of the concatenated
voice events sorted (stably) by `(time, is-modifier-press)` — modifier
presses last at an equal time — while the
`(priority, key name)` ordering with
`modifier_press(0) < key_press(1) < modifier_release(2)` is applied
separately, within each simultaneous group, by the playback encoder's group
sort. -/
theorem c6_merger_order :
    (∀ tes : List (List TimeEvent), (merge_track_events tes).Perm tes.flatten) ∧
    (∀ tes : List (List TimeEvent),
      (merge_track_events tes).Pairwise (fun a b => merger_le a b = true)) ∧
    (∀ g : List TimeEvent,
      (stableSortBy prio_key_le g).Pairwise (fun a b => prio_key_le a b = true)) :=
  ⟨fun tes => stableSortBy_perm merger_le tes.flatten,
   fun tes => pairwise_stableSortBy merger_le merger_le_total merger_le_trans tes.flatten,
   fun g => pairwise_stableSortBy prio_key_le prio_key_le_total prio_key_le_trans g⟩

end TxtScore
